import Mathlib

/-!
Shallow embedding of `src/app/signal_logic.py` of the
ai_futures_position_recommend_bot repository: the risk/reward helper
`compute_risk_reward` and the sanitizer `sanitize_signal_response`.

Modelling conventions:
* Python numbers (int/float/bool) are modelled as exact rationals `ℚ`;
  the sanitizer's logic consists of comparisons, min/max clamps and one
  division by a proved-nonzero quantity, all of which are exact over ℚ.
* A Python object is modelled by `PyVal`: `vnone` is `None`, `vnum` an
  int/float/bool, `vstr` a string, `vother` any other object carried with
  its `str()` text.
* `float(x)` is modelled by `pyFloat` (returning `none` where Python
  raises `TypeError`/`ValueError`); string parsing covers signed decimal
  literals, the forms the program's decision payloads use.
* The input mapping `raw` is a partial map `String → Option PyVal`;
  `raw.get(k, d)` is `pyGetD`.
* Python raises are modelled by `Except String`: the sanitizer can hit a
  `TypeError` at `confidence_val < confidence_threshold` when the
  `confidence_threshold` key holds a non-number, and a
  `ZeroDivisionError` when the clamped stop-loss percentage is zero
  (only reachable with pathological factor arguments).
-/

namespace SignalBot

/-- A Python value as the sanitizer observes it: `None`, a number
(int/float/bool, as an exact rational), a string, or any other object
(carried with its `str()` text). -/
inductive PyVal where
  | vnone : PyVal
  | vnum : ℚ → PyVal
  | vstr : String → PyVal
  | vother : String → PyVal
deriving DecidableEq, Repr

/-- Numeric value of a single decimal digit character. -/
def digitVal (c : Char) : ℕ :=
  if c = '1' then 1 else if c = '2' then 2 else if c = '3' then 3
  else if c = '4' then 4 else if c = '5' then 5 else if c = '6' then 6
  else if c = '7' then 7 else if c = '8' then 8 else if c = '9' then 9
  else 0

/-- Numeric value of a digit list, most significant first. -/
def digitsToNat (l : List Char) : ℕ :=
  l.foldl (fun a c => a * 10 + digitVal c) 0

/-- Split a character list into its leading digits and the rest. -/
def takeDigits : List Char → List Char × List Char
  | [] => ([], [])
  | c :: rest =>
      if c.isDigit then
        let p := takeDigits rest
        (c :: p.1, p.2)
      else ([], c :: rest)

/-- Parse an unsigned decimal literal (`"12"`, `"12.5"`, `".5"`, `"5."`),
the body of Python `float(str)` without sign. -/
def decLit (l : List Char) : Option ℚ :=
  let p := takeDigits l
  match p.2 with
  | [] => if p.1.isEmpty then none else some (digitsToNat p.1 : ℚ)
  | c :: fs =>
      if c = '.' ∧ fs.all Char.isDigit ∧ (¬ p.1.isEmpty ∨ ¬ fs.isEmpty) then
        some ((digitsToNat p.1 : ℚ) + (digitsToNat fs : ℚ) / (10 ^ fs.length))
      else none

/-- Model of Python `float(s)` on a string: optional sign then a decimal
literal; returns `none` where Python raises `ValueError`.  (Exponents,
`inf`/`nan` and underscores are not modelled; no claim depends on them.) -/
def parseNumStr (s : String) : Option ℚ :=
  match s.data with
  | [] => none
  | c :: rest =>
      if c = '-' then (decLit rest).map Neg.neg
      else if c = '+' then decLit rest
      else decLit (c :: rest)

/-- Model of Python `float(x)` on an arbitrary object: returns `none`
exactly where Python raises `TypeError` or `ValueError` (both of which the
source catches wherever it parses). -/
def pyFloat : PyVal → Option ℚ
  | .vnum q => some q
  | .vstr s => parseNumStr s
  | .vnone => none
  | .vother _ => none

/-- Model of Python `str(x)`.  A number's text is rendered from its
rational value (digits, sign, slash); all that matters to the sanitizer is
that it is never one of the decision words. -/
def pyStr : PyVal → String
  | .vnone => "None"
  | .vnum q => toString q.num ++ (if q.den = 1 then "" else "/" ++ toString q.den)
  | .vstr s => s
  | .vother r => r

/-- Model of Python `str.upper()` on the ASCII range (the decision
strings the sanitizer compares against are ASCII). -/
def upperChar (c : Char) : Char :=
  if 'a' ≤ c ∧ c ≤ 'z' then Char.ofNat (c.toNat - 32) else c

/-- Python `s.upper()` applied characterwise. -/
def upperStr (s : String) : String := ⟨s.data.map upperChar⟩

/-- Is the value a Python number? -/
def isNum : PyVal → Bool
  | .vnum _ => true
  | _ => false

/-- Model of the Python comparison `a < v` between a float `a` and an
arbitrary object `v`: defined for numbers, a `TypeError` otherwise
(the source does not guard this comparison). -/
def pyLtNum (a : ℚ) : PyVal → Except String Bool
  | .vnum b => .ok (decide (a < b))
  | _ => .error "TypeError"

/-- The input mapping (`Dict[str, Any]`): `none` for an absent key. -/
def RawMap : Type := String → Option PyVal

/-- Python `raw.get(k, d)`. -/
def pyGetD (raw : RawMap) (k : String) (d : PyVal) : PyVal :=
  (raw k).getD d

/-- Build a `RawMap` from an association list (first binding wins). -/
def rawOf : List (String × PyVal) → RawMap
  | [] => fun _ => none
  | (k, v) :: rest => fun q => if q = k then some v else rawOf rest q

/-- The nine values `sanitize_signal_response` reads from `raw`
(source lines 38–47), with the source's defaults already applied. -/
structure RawFields where
  confidence_threshold : PyVal   -- raw.get("confidence_threshold", 70.0)
  decision : PyVal               -- raw.get("decision", "")
  confidence_score : PyVal       -- raw.get("confidence_score")
  entry_price : PyVal            -- raw.get("entry_price")
  sl_price : PyVal               -- raw.get("sl_price")
  tp_price : PyVal               -- raw.get("tp_price")
  risk_reward_ratio : PyVal      -- raw.get("risk_reward_ratio")
  reasoning : PyVal              -- raw.get("reasoning")
  adjusted_sl_percentage : PyVal -- raw.get("adjusted_sl_percentage")
deriving DecidableEq, Repr

/-- The field reads at the top of `sanitize_signal_response`. -/
def readFields (raw : RawMap) : RawFields where
  confidence_threshold := pyGetD raw "confidence_threshold" (.vnum 70)
  decision := pyGetD raw "decision" (.vstr "")
  confidence_score := pyGetD raw "confidence_score" .vnone
  entry_price := pyGetD raw "entry_price" .vnone
  sl_price := pyGetD raw "sl_price" .vnone
  tp_price := pyGetD raw "tp_price" .vnone
  risk_reward_ratio := pyGetD raw "risk_reward_ratio" .vnone
  reasoning := pyGetD raw "reasoning" .vnone
  adjusted_sl_percentage := pyGetD raw "adjusted_sl_percentage" .vnone

/-- The sanitized output dictionary. -/
structure Sanitized where
  decision : String
  confidence_score : ℚ
  entry_price : PyVal
  sl_price : PyVal
  tp_price : PyVal
  risk_reward_ratio : PyVal
  reasoning : PyVal
  adjusted_sl_percentage : Option ℚ
  position_size_pct_of_equity : Option ℚ
  violations : List String
deriving DecidableEq, Repr

/-- The helper `compute_risk_reward(decision, entry, sl, tp)` from
`src/app/signal_logic.py` lines 13–25. -/
def compute_risk_reward (decision : String) (entry sl tp : ℚ) : Option ℚ :=
  let rr? : Option (ℚ × ℚ) :=
    if decision = "LONG" then some (entry - sl, tp - entry)
    else if decision = "SHORT" then some (sl - entry, entry - tp)
    else none
  match rr? with
  | none => none
  | some (risk, reward) =>
      if risk ≤ 0 ∨ reward ≤ 0 then none else some (reward / risk)

/-- The decision-kind gate: `if decision not in {"LONG","SHORT","NEUTRAL"}`
appends `invalid_decision` and coerces to NEUTRAL. -/
def decisionGate (d0 : String) : List String × String :=
  if d0 = "LONG" ∨ d0 = "SHORT" ∨ d0 = "NEUTRAL" then ([], d0)
  else (["invalid_decision"], "NEUTRAL")

/-- The bounds gate on the parsed prices (`long_bounds` / `short_bounds`). -/
def boundsGate (decision2 : String) (entry_f sl_f tp_f : ℚ)
    (violations : List String) : List String × String :=
  if decision2 = "LONG" then
    if ¬ (sl_f < entry_f ∧ entry_f < tp_f) then
      (violations ++ ["long_bounds"], "NEUTRAL")
    else (violations, decision2)
  else if decision2 = "SHORT" then
    if ¬ (tp_f < entry_f ∧ entry_f < sl_f) then
      (violations ++ ["short_bounds"], "NEUTRAL")
    else (violations, decision2)
  else (violations, decision2)

/-- The risk/reward gate: a `none` ratio appends `rr_calc`; a ratio below 1
or above 10 (both hardcoded in the source) appends `rr_range`.  Note that
in both tagged branches the source still stores `rr_final` into `rr`, so
the out-of-range ratio survives into the output. -/
def rrGate (decision3 : String) (entry_f sl_f tp_f : ℚ)
    (violations : List String) : List String × String × PyVal :=
  match compute_risk_reward decision3 entry_f sl_f tp_f with
  | none => (violations ++ ["rr_calc"], "NEUTRAL", .vnone)
  | some r =>
      if r < 1 ∨ r > 10 then (violations ++ ["rr_range"], "NEUTRAL", .vnum r)
      else (violations, decision3, .vnum r)

/-- The `if decision != "NEUTRAL"` block of the source (lines 62–96):
parses the prices, runs the bounds and risk/reward gates, and yields the
updated `(violations, decision, rr)`.  On a parse failure the source sets
`invalid_numbers` but leaves `rr` at the raw `risk_reward_ratio` value; on
the early-NEUTRAL path it sets `rr = None`. -/
def numericGates (decision2 : String) (f : RawFields)
    (violations : List String) : List String × String × PyVal :=
  if decision2 ≠ "NEUTRAL" then
    match pyFloat f.entry_price, pyFloat f.sl_price, pyFloat f.tp_price with
    | some entry_f, some sl_f, some tp_f =>
        let bg := boundsGate decision2 entry_f sl_f tp_f violations
        if bg.2 ≠ "NEUTRAL" then rrGate bg.2 entry_f sl_f tp_f bg.1
        else (bg.1, "NEUTRAL", .vnone)
    | _, _, _ => (violations ++ ["invalid_numbers"], "NEUTRAL", f.risk_reward_ratio)
  else (violations, decision2, .vnone)

/-- The candidate stop-loss percentage: the parsed
`adjusted_sl_percentage` when present and parseable, else `base_sl_pct`. -/
def slCandidate (v : PyVal) (base_sl_pct : ℚ) : ℚ :=
  match v with
  | .vnone => base_sl_pct
  | w => (pyFloat w).getD base_sl_pct

/-- The clamp idiom `min(max(x, lo), hi)` the source repeats. -/
def clamp (x lo hi : ℚ) : ℚ := min (max x lo) hi

/-- Source line 48 as a value: the decision string uppercased,
`str(raw.get("decision", "")).upper()`. -/
def decision0 (f : RawFields) : String := upperStr (pyStr f.decision)

/-- Source lines 54–57: `float(confidence)` with `0.0` substituted on
`TypeError`/`ValueError`. -/
def confidence_val (f : RawFields) : ℚ := (pyFloat f.confidence_score).getD 0

/-- Source line 98: `base_sl_pct = max(user_sl_pct, 0.01)`. -/
def base_sl_pct (user_sl_pct : ℚ) : ℚ := max user_sl_pct (1 / 100)

/-- Source lines 99–105: the candidate stop-loss percentage clamped into
`[base_sl_pct*min_sl_factor, base_sl_pct*max_sl_factor]`. -/
def adjusted_sl_pct (f : RawFields)
    (user_sl_pct min_sl_factor max_sl_factor : ℚ) : ℚ :=
  clamp (slCandidate f.adjusted_sl_percentage (base_sl_pct user_sl_pct))
    (base_sl_pct user_sl_pct * min_sl_factor)
    (base_sl_pct user_sl_pct * max_sl_factor)

/-- The composite of the decision-kind gate, the confidence coercion
(`below` is the already-evaluated `confidence_val < confidence_threshold`)
and the numeric block: the final `(violations, decision, rr)`. -/
def gatesResult (f : RawFields) (below : Bool) : List String × String × PyVal :=
  numericGates (if below then "NEUTRAL" else (decisionGate (decision0 f)).2) f
    (decisionGate (decision0 f)).1

/-- The body of `sanitize_signal_response` after its `raw.get` reads
(source lines 48–128), over the extracted fields. -/
def sanitizeFields (f : RawFields)
    (user_sl_pct min_sl_factor max_sl_factor
      min_position_size_pct max_position_size_pct : ℚ) :
    Except String Sanitized :=
  match pyLtNum (confidence_val f) f.confidence_threshold with
  | .error e => .error e
  | .ok below =>
      let vdr := gatesResult f below
      let adj := adjusted_sl_pct f user_sl_pct min_sl_factor max_sl_factor
      if vdr.2.1 ≠ "NEUTRAL" then
        if adj = 0 then .error "ZeroDivisionError"
        else
          .ok { decision := vdr.2.1
                confidence_score := confidence_val f
                entry_price := f.entry_price
                sl_price := f.sl_price
                tp_price := f.tp_price
                risk_reward_ratio := vdr.2.2
                reasoning := f.reasoning
                adjusted_sl_percentage := some adj
                position_size_pct_of_equity :=
                  some (clamp ((base_sl_pct user_sl_pct / adj) * 100)
                    min_position_size_pct max_position_size_pct)
                violations := vdr.1 }
      else
        .ok { decision := vdr.2.1
              confidence_score := confidence_val f
              entry_price := .vnone
              sl_price := .vnone
              tp_price := .vnone
              risk_reward_ratio := vdr.2.2
              reasoning := f.reasoning
              adjusted_sl_percentage := none
              position_size_pct_of_equity := none
              violations := vdr.1 }

/-- An optional number rendered back as a Python value. -/
def optNum : Option ℚ → PyVal
  | some q => .vnum q
  | none => .vnone

/-- The raw mapping rebuilt from a sanitized output, as claim C9's
refeeding step describes: the output's fields become a new proposed
decision, together with an explicitly supplied confidence threshold. -/
def refeedRaw (out : Sanitized) (thr : PyVal) : RawMap :=
  rawOf [("confidence_threshold", thr),
         ("decision", .vstr out.decision),
         ("confidence_score", .vnum out.confidence_score),
         ("entry_price", out.entry_price),
         ("sl_price", out.sl_price),
         ("tp_price", out.tp_price),
         ("risk_reward_ratio", out.risk_reward_ratio),
         ("reasoning", out.reasoning),
         ("adjusted_sl_percentage", optNum out.adjusted_sl_percentage)]

/-- The sanitizer `sanitize_signal_response(raw, user_sl_pct, *, min_sl_factor=0.5,
max_sl_factor=1.5, min_position_size_pct=50.0, max_position_size_pct=150.0)`.
The keyword defaults are supplied by callers here; theorems about the
default configuration pass `(1/2) (3/2) 50 150`. -/
def sanitize_signal_response (raw : RawMap)
    (user_sl_pct min_sl_factor max_sl_factor
      min_position_size_pct max_position_size_pct : ℚ) :
    Except String Sanitized :=
  sanitizeFields (readFields raw) user_sl_pct min_sl_factor max_sl_factor
    min_position_size_pct max_position_size_pct

/-! ## Concrete inputs and outputs used by counterexamples and witnesses
All runs below use the keyword defaults `min_sl_factor = 1/2`,
`max_sl_factor = 3/2`, `min_position_size_pct = 50`,
`max_position_size_pct = 150` and `user_sl_pct = 1`. -/

/-- A LONG proposal whose ratio `(150-100)/(100-99) = 50` trips the
`rr_range` gate. -/
def c1raw : RawMap := rawOf
  [("decision", .vstr "LONG"), ("confidence_score", .vnum 90),
   ("entry_price", .vnum 100), ("sl_price", .vnum 99), ("tp_price", .vnum 150)]

/-- Output for `c1raw`: NEUTRAL, yet `risk_reward_ratio` still holds 50. -/
def c1out : Sanitized :=
  { decision := "NEUTRAL", confidence_score := 90, entry_price := .vnone,
    sl_price := .vnone, tp_price := .vnone, risk_reward_ratio := .vnum 50,
    reasoning := .vnone, adjusted_sl_percentage := none,
    position_size_pct_of_equity := none, violations := ["rr_range"] }

/-- Output for the empty mapping: everything defaulted, NEUTRAL. -/
def c1wout : Sanitized :=
  { decision := "NEUTRAL", confidence_score := 0, entry_price := .vnone,
    sl_price := .vnone, tp_price := .vnone, risk_reward_ratio := .vnone,
    reasoning := .vnone, adjusted_sl_percentage := none,
    position_size_pct_of_equity := none, violations := ["invalid_decision"] }

/-- A mapping whose `confidence_threshold` key holds a string: the
unguarded `confidence_val < confidence_threshold` comparison raises. -/
def c2raw : RawMap := rawOf [("confidence_threshold", .vstr "high")]

/-- Malformed fields everywhere, but no `confidence_threshold` key. -/
def c2wraw : RawMap := rawOf
  [("decision", .vstr "HOLD"), ("confidence_score", .vstr "high"),
   ("entry_price", .vother "obj")]

/-- A LONG proposal with confidence 65: below the default threshold 70. -/
def c3raw1 : RawMap := rawOf
  [("decision", .vstr "LONG"), ("confidence_score", .vnum 65),
   ("entry_price", .vnum 100), ("sl_price", .vnum 99), ("tp_price", .vnum 102)]

/-- The same contract fields as `c3raw1` plus an injected
`confidence_threshold` of 60: a key outside the claimed contract. -/
def c3raw2 : RawMap := rawOf
  [("decision", .vstr "LONG"), ("confidence_score", .vnum 65),
   ("entry_price", .vnum 100), ("sl_price", .vnum 99), ("tp_price", .vnum 102),
   ("confidence_threshold", .vnum 60)]

/-- Output for `c3raw1`: low confidence, silent NEUTRAL. -/
def c3out1 : Sanitized :=
  { decision := "NEUTRAL", confidence_score := 65, entry_price := .vnone,
    sl_price := .vnone, tp_price := .vnone, risk_reward_ratio := .vnone,
    reasoning := .vnone, adjusted_sl_percentage := none,
    position_size_pct_of_equity := none, violations := [] }

/-- Output for `c3raw2`: the injected threshold lets the LONG through. -/
def c3out2 : Sanitized :=
  { decision := "LONG", confidence_score := 65, entry_price := .vnum 100,
    sl_price := .vnum 99, tp_price := .vnum 102, risk_reward_ratio := .vnum 2,
    reasoning := .vnone, adjusted_sl_percentage := some 1,
    position_size_pct_of_equity := some 100, violations := [] }

/-- A clean LONG proposal used for the noninterference witness. -/
def c3wrawA : RawMap := rawOf
  [("decision", .vstr "LONG"), ("confidence_score", .vnum 80),
   ("entry_price", .vnum 100), ("sl_price", .vnum 99), ("tp_price", .vnum 102)]

/-- The same proposal with an extra unrelated key. -/
def c3wrawB : RawMap := rawOf
  [("decision", .vstr "LONG"), ("confidence_score", .vnum 80),
   ("entry_price", .vnum 100), ("sl_price", .vnum 99), ("tp_price", .vnum 102),
   ("junk", .vother "gremlin")]

/-- A LONG proposal with ratio `(105-100)/(100-99) = 5`. -/
def c4raw : RawMap := rawOf
  [("decision", .vstr "LONG"), ("confidence_score", .vnum 90),
   ("entry_price", .vnum 100), ("sl_price", .vnum 99), ("tp_price", .vnum 105)]

/-- Output for `c4raw`: the hardcoded `[1,10]` range admits ratio 5. -/
def c4out : Sanitized :=
  { decision := "LONG", confidence_score := 90, entry_price := .vnum 100,
    sl_price := .vnum 99, tp_price := .vnum 105, risk_reward_ratio := .vnum 5,
    reasoning := .vnone, adjusted_sl_percentage := some 1,
    position_size_pct_of_equity := some 100, violations := [] }

/-- A LONG proposal whose prices are numeric strings. -/
def c5raw : RawMap := rawOf
  [("decision", .vstr "LONG"), ("confidence_score", .vnum 90),
   ("entry_price", .vstr "100"), ("sl_price", .vstr "99"),
   ("tp_price", .vstr "102")]

/-- Output for `c5raw`: the string prices pass through unchanged. -/
def c5out : Sanitized :=
  { decision := "LONG", confidence_score := 90, entry_price := .vstr "100",
    sl_price := .vstr "99", tp_price := .vstr "102",
    risk_reward_ratio := .vnum 2, reasoning := .vnone,
    adjusted_sl_percentage := some 1, position_size_pct_of_equity := some 100,
    violations := [] }

/-- A LONG proposal with confidence 65 against the default threshold 70. -/
def c7raw : RawMap := rawOf
  [("decision", .vstr "LONG"), ("confidence_score", .vnum 65),
   ("entry_price", .vnum 100), ("sl_price", .vnum 99), ("tp_price", .vnum 102)]

/-- A valid LONG proposal suggesting an oversized stop-loss of 2%. -/
def c8raw : RawMap := rawOf
  [("decision", .vstr "LONG"), ("confidence_score", .vnum 90),
   ("entry_price", .vnum 100), ("sl_price", .vnum 99), ("tp_price", .vnum 102),
   ("adjusted_sl_percentage", .vnum 2)]

/-- Output for `c8raw`: stop-loss clamped to 1.5, position sized 200/3. -/
def c8out : Sanitized :=
  { decision := "LONG", confidence_score := 90, entry_price := .vnum 100,
    sl_price := .vnum 99, tp_price := .vnum 102, risk_reward_ratio := .vnum 2,
    reasoning := .vnone, adjusted_sl_percentage := some (3/2),
    position_size_pct_of_equity := some (200/3), violations := [] }

/-- A compliant LONG proposal for the idempotence witness. -/
def c9raw : RawMap := rawOf
  [("decision", .vstr "LONG"), ("confidence_score", .vnum 90),
   ("entry_price", .vnum 100), ("sl_price", .vnum 99), ("tp_price", .vnum 102),
   ("adjusted_sl_percentage", .vnum 2)]

/-- Output for `c9raw`. -/
def c9out : Sanitized :=
  { decision := "LONG", confidence_score := 90, entry_price := .vnum 100,
    sl_price := .vnum 99, tp_price := .vnum 102, risk_reward_ratio := .vnum 2,
    reasoning := .vnone, adjusted_sl_percentage := some (3/2),
    position_size_pct_of_equity := some (200/3), violations := [] }

/-- A valid LONG proposal for the `rr_calc`-unreachability witness. -/
def c10raw : RawMap := rawOf
  [("decision", .vstr "LONG"), ("confidence_score", .vnum 90),
   ("entry_price", .vnum 100), ("sl_price", .vnum 99), ("tp_price", .vnum 102)]

/-- Output for `c10raw`. -/
def c10out : Sanitized :=
  { decision := "LONG", confidence_score := 90, entry_price := .vnum 100,
    sl_price := .vnum 99, tp_price := .vnum 102, risk_reward_ratio := .vnum 2,
    reasoning := .vnone, adjusted_sl_percentage := some 1,
    position_size_pct_of_equity := some 100, violations := [] }

/-! ## Helper lemmas -/

/-- A computed risk/reward ratio is strictly positive. -/
theorem crr_pos {d : String} {e s t r : ℚ}
    (h : compute_risk_reward d e s t = some r) : 0 < r := by
  by_cases hL : d = "LONG"
  · subst hL
    simp [compute_risk_reward] at h
    have hr : (t - e) / (e - s) = r := by tauto
    have ha : s < e := by tauto
    have hb : e < t := by tauto
    rw [← hr]
    exact div_pos (by linarith) (by linarith)
  · by_cases hS : d = "SHORT"
    · subst hS
      simp [compute_risk_reward, hL] at h
      have hr : (e - t) / (s - e) = r := by tauto
      have ha : e < s := by tauto
      have hb : t < e := by tauto
      rw [← hr]
      exact div_pos (by linarith) (by linarith)
    · simp [compute_risk_reward, hL, hS] at h

/-- Strict LONG bounds make the ratio defined. -/
theorem crr_long {e s t : ℚ} (h1 : s < e) (h2 : e < t) :
    compute_risk_reward "LONG" e s t = some ((t - e) / (e - s)) := by
  have hc : ¬ (e - s ≤ 0 ∨ t - e ≤ 0) := by
    push_neg
    exact ⟨by linarith, by linarith⟩
  simp [compute_risk_reward, hc]
  exact ⟨h1, h2⟩

/-- Strict SHORT bounds make the ratio defined. -/
theorem crr_short {e s t : ℚ} (h1 : t < e) (h2 : e < s) :
    compute_risk_reward "SHORT" e s t = some ((e - t) / (s - e)) := by
  have hc : ¬ (s - e ≤ 0 ∨ e - t ≤ 0) := by
    push_neg
    exact ⟨by linarith, by linarith⟩
  simp [compute_risk_reward, hc]
  exact ⟨h2, h1⟩

/-- A decision string outside the three-word set yields no ratio. -/
theorem crr_other {d : String} (hL : d ≠ "LONG") (hS : d ≠ "SHORT")
    (e s t : ℚ) : compute_risk_reward d e s t = none := by
  simp [compute_risk_reward, hL, hS]

/-- A valid decision passes the decision-kind gate unchanged. -/
theorem decisionGate_valid {d0 : String}
    (h : d0 = "LONG" ∨ d0 = "SHORT" ∨ d0 = "NEUTRAL") :
    decisionGate d0 = ([], d0) := by
  simp [decisionGate, h]

/-- An invalid decision is coerced to NEUTRAL with the tag recorded. -/
theorem decisionGate_invalid {d0 : String}
    (h : ¬ (d0 = "LONG" ∨ d0 = "SHORT" ∨ d0 = "NEUTRAL")) :
    decisionGate d0 = (["invalid_decision"], "NEUTRAL") := by
  simp only [decisionGate, if_neg h]

/-- The numeric block is skipped for a NEUTRAL decision. -/
theorem numericGates_neutral (f : RawFields) (v : List String) :
    numericGates "NEUTRAL" f v = (v, "NEUTRAL", .vnone) := by
  simp [numericGates]

/-- Inversion of the numeric block for a non-NEUTRAL outcome: the
decision survived unchanged, no tag was appended, the three prices
parsed, the strict bounds hold, and the ratio is defined and in range. -/
theorem numericGates_inv {d2 : String} {f : RawFields} {v : List String}
    (h2 : (numericGates d2 f v).2.1 ≠ "NEUTRAL") :
    (numericGates d2 f v).2.1 = d2 ∧ (numericGates d2 f v).1 = v ∧
    ∃ e s t r : ℚ,
      pyFloat f.entry_price = some e ∧ pyFloat f.sl_price = some s ∧
      pyFloat f.tp_price = some t ∧
      (d2 = "LONG" → s < e ∧ e < t) ∧ (d2 = "SHORT" → t < e ∧ e < s) ∧
      compute_risk_reward d2 e s t = some r ∧ ¬ (r < 1 ∨ r > 10) ∧
      (numericGates d2 f v).2.2 = .vnum r := by
  by_cases hn : d2 = "NEUTRAL"
  · rw [hn, numericGates_neutral] at h2
    simp at h2
  cases he : pyFloat f.entry_price with
  | none => simp [numericGates, hn, he] at h2
  | some e =>
  cases hs : pyFloat f.sl_price with
  | none => simp [numericGates, hn, he, hs] at h2
  | some s =>
  cases ht : pyFloat f.tp_price with
  | none => simp [numericGates, hn, he, hs, ht] at h2
  | some t =>
  have hng : numericGates d2 f v =
      (if (boundsGate d2 e s t v).2 ≠ "NEUTRAL" then
        rrGate (boundsGate d2 e s t v).2 e s t (boundsGate d2 e s t v).1
      else ((boundsGate d2 e s t v).1, "NEUTRAL", .vnone)) := by
    simp [numericGates, hn, he, hs, ht]
  by_cases hL : d2 = "LONG"
  · subst hL
    by_cases hb : s < e ∧ e < t
    · have hbg : boundsGate "LONG" e s t v = (v, "LONG") := by
        simp [boundsGate, hb]
      have hcrr := crr_long hb.1 hb.2
      have hrg : numericGates "LONG" f v =
          (if (t - e) / (e - s) < 1 ∨ (t - e) / (e - s) > 10 then
            (v ++ ["rr_range"], "NEUTRAL", .vnum ((t - e) / (e - s)))
          else (v, "LONG", .vnum ((t - e) / (e - s)))) := by
        rw [hng, hbg]
        simp [rrGate, hcrr]
      by_cases hr : (t - e) / (e - s) < 1 ∨ (t - e) / (e - s) > 10
      · rw [hrg, if_pos hr] at h2
        simp at h2
      · rw [hrg, if_neg hr]
        refine ⟨rfl, rfl, e, s, t, (t - e) / (e - s), rfl, rfl, rfl,
          fun _ => hb, fun hS => absurd hS (by decide), hcrr, hr, rfl⟩
    · have hbg : boundsGate "LONG" e s t v = (v ++ ["long_bounds"], "NEUTRAL") := by
        simp [boundsGate, hb]
      rw [hng, hbg] at h2
      simp at h2
  by_cases hS : d2 = "SHORT"
  · subst hS
    by_cases hb : t < e ∧ e < s
    · have hbg : boundsGate "SHORT" e s t v = (v, "SHORT") := by
        simp [boundsGate, hb]
      have hcrr := crr_short hb.1 hb.2
      have hrg : numericGates "SHORT" f v =
          (if (e - t) / (s - e) < 1 ∨ (e - t) / (s - e) > 10 then
            (v ++ ["rr_range"], "NEUTRAL", .vnum ((e - t) / (s - e)))
          else (v, "SHORT", .vnum ((e - t) / (s - e)))) := by
        rw [hng, hbg]
        simp [rrGate, hcrr]
      by_cases hr : (e - t) / (s - e) < 1 ∨ (e - t) / (s - e) > 10
      · rw [hrg, if_pos hr] at h2
        simp at h2
      · rw [hrg, if_neg hr]
        refine ⟨rfl, rfl, e, s, t, (e - t) / (s - e), rfl, rfl, rfl,
          fun hL' => absurd hL' (by decide), fun _ => hb, hcrr, hr, rfl⟩
    · have hbg : boundsGate "SHORT" e s t v = (v ++ ["short_bounds"], "NEUTRAL") := by
        simp [boundsGate, hb]
      rw [hng, hbg] at h2
      simp at h2
  · have hbg : boundsGate d2 e s t v = (v, d2) := by
      simp [boundsGate, hL, hS]
    have hcrr := crr_other hL hS e s t
    rw [hng, hbg] at h2
    simp [rrGate, hcrr, hn] at h2

/-- Inversion of the bounds gate: if the decision survived, nothing was
appended and the strict ordering holds for the directional decisions. -/
theorem boundsGate_inv {d2 : String} {e s t : ℚ} {v : List String}
    (h : (boundsGate d2 e s t v).2 ≠ "NEUTRAL") :
    boundsGate d2 e s t v = (v, d2) ∧
    (d2 = "LONG" → s < e ∧ e < t) ∧ (d2 = "SHORT" → t < e ∧ e < s) := by
  by_cases hL : d2 = "LONG"
  · subst hL
    by_cases hb : s < e ∧ e < t
    · refine ⟨by simp [boundsGate, hb], fun _ => hb,
        fun hS => absurd hS (by decide)⟩
    · rw [show boundsGate "LONG" e s t v = (v ++ ["long_bounds"], "NEUTRAL") from
        by simp [boundsGate, hb]] at h
      simp at h
  by_cases hS : d2 = "SHORT"
  · subst hS
    by_cases hb : t < e ∧ e < s
    · refine ⟨by simp [boundsGate, hb], fun hL' => absurd hL' (by decide),
        fun _ => hb⟩
    · rw [show boundsGate "SHORT" e s t v = (v ++ ["short_bounds"], "NEUTRAL") from
        by simp [boundsGate, hb]] at h
      simp at h
  · exact ⟨by simp [boundsGate, hL, hS], fun hL' => absurd hL' hL,
      fun hS' => absurd hS' hS⟩

/-- What the numeric block can leave in the `rr` slot: `None`, an
out-of-range ratio together with the `rr_range` tag and a NEUTRAL
decision, the untouched raw `risk_reward_ratio` value together with the
`invalid_numbers` tag, or a surviving non-NEUTRAL decision. -/
theorem numericGates_rr_outcome (d2 : String) (f : RawFields)
    (v : List String) :
    (numericGates d2 f v).2.2 = .vnone ∨
    ("rr_range" ∈ (numericGates d2 f v).1 ∧
      (∃ q : ℚ, (numericGates d2 f v).2.2 = .vnum q)) ∨
    ("invalid_numbers" ∈ (numericGates d2 f v).1 ∧
      (numericGates d2 f v).2.2 = f.risk_reward_ratio) ∨
    (numericGates d2 f v).2.1 ≠ "NEUTRAL" := by
  by_cases hn : d2 = "NEUTRAL"
  · rw [hn, numericGates_neutral]
    exact Or.inl rfl
  cases he : pyFloat f.entry_price with
  | none =>
    refine Or.inr (Or.inr (Or.inl ?_))
    simp [numericGates, hn, he]
  | some e =>
  cases hs : pyFloat f.sl_price with
  | none =>
    refine Or.inr (Or.inr (Or.inl ?_))
    simp [numericGates, hn, he, hs]
  | some s =>
  cases ht : pyFloat f.tp_price with
  | none =>
    refine Or.inr (Or.inr (Or.inl ?_))
    simp [numericGates, hn, he, hs, ht]
  | some t =>
  have hng : numericGates d2 f v =
      (if (boundsGate d2 e s t v).2 ≠ "NEUTRAL" then
        rrGate (boundsGate d2 e s t v).2 e s t (boundsGate d2 e s t v).1
      else ((boundsGate d2 e s t v).1, "NEUTRAL", .vnone)) := by
    simp [numericGates, hn, he, hs, ht]
  by_cases hb2 : (boundsGate d2 e s t v).2 = "NEUTRAL"
  · rw [hng, if_neg (by simpa using hb2)]
    exact Or.inl rfl
  rw [hng, if_pos hb2]
  cases hcr : compute_risk_reward (boundsGate d2 e s t v).2 e s t with
  | none =>
    rw [show rrGate (boundsGate d2 e s t v).2 e s t (boundsGate d2 e s t v).1 =
      ((boundsGate d2 e s t v).1 ++ ["rr_calc"], "NEUTRAL", .vnone) from
      by simp [rrGate, hcr]]
    exact Or.inl rfl
  | some r =>
    by_cases hr : r < 1 ∨ r > 10
    · rw [show rrGate (boundsGate d2 e s t v).2 e s t (boundsGate d2 e s t v).1 =
        ((boundsGate d2 e s t v).1 ++ ["rr_range"], "NEUTRAL", .vnum r) from
        by simp [rrGate, hcr, hr]]
      exact Or.inr (Or.inl ⟨by simp, r, rfl⟩)
    · rw [show rrGate (boundsGate d2 e s t v).2 e s t (boundsGate d2 e s t v).1 =
        ((boundsGate d2 e s t v).1, (boundsGate d2 e s t v).2, .vnum r) from
        by simp [rrGate, hcr, hr]]
      exact Or.inr (Or.inr (Or.inr hb2))

/-- The numeric block never appends `rr_calc` when the incoming decision
is one of the three words: strict bounds imply the ratio is defined. -/
theorem numericGates_no_rr_calc {d2 : String} {f : RawFields}
    {v : List String} (hv : "rr_calc" ∉ v)
    (hd : d2 = "LONG" ∨ d2 = "SHORT" ∨ d2 = "NEUTRAL") :
    "rr_calc" ∉ (numericGates d2 f v).1 := by
  by_cases hn : d2 = "NEUTRAL"
  · rw [hn, numericGates_neutral]
    exact hv
  cases he : pyFloat f.entry_price with
  | none =>
    simp only [numericGates, hn, he, ne_eq, not_false_iff, if_true]
    simp [List.mem_append, hv]
  | some e =>
  cases hs : pyFloat f.sl_price with
  | none =>
    simp only [numericGates, hn, he, hs, ne_eq, not_false_iff, if_true]
    simp [List.mem_append, hv]
  | some s =>
  cases ht : pyFloat f.tp_price with
  | none =>
    simp only [numericGates, hn, he, hs, ht, ne_eq, not_false_iff, if_true]
    simp [List.mem_append, hv]
  | some t =>
  have hng : numericGates d2 f v =
      (if (boundsGate d2 e s t v).2 ≠ "NEUTRAL" then
        rrGate (boundsGate d2 e s t v).2 e s t (boundsGate d2 e s t v).1
      else ((boundsGate d2 e s t v).1, "NEUTRAL", .vnone)) := by
    simp [numericGates, hn, he, hs, ht]
  have hbfst : "rr_calc" ∉ (boundsGate d2 e s t v).1 := by
    unfold boundsGate
    split
    · split
      · simp [List.mem_append, hv]
      · exact hv
    · split
      · split
        · simp [List.mem_append, hv]
        · exact hv
      · exact hv
  by_cases hb2 : (boundsGate d2 e s t v).2 = "NEUTRAL"
  · rw [hng, if_neg (by simpa using hb2)]
    exact hbfst
  rw [hng, if_pos hb2]
  obtain ⟨hbeq, hbL, hbS⟩ := boundsGate_inv hb2
  have hd2 : d2 = "LONG" ∨ d2 = "SHORT" := by
    rcases hd with h | h | h
    · exact Or.inl h
    · exact Or.inr h
    · exact absurd h hn
  have hsome : ∃ q, compute_risk_reward (boundsGate d2 e s t v).2 e s t = some q := by
    rw [hbeq]
    rcases hd2 with h | h
    · obtain ⟨h1, h2⟩ := hbL h
      exact ⟨_, by rw [h]; exact crr_long h1 h2⟩
    · obtain ⟨h1, h2⟩ := hbS h
      exact ⟨_, by rw [h]; exact crr_short h1 h2⟩
  obtain ⟨q, hq⟩ := hsome
  rw [show rrGate (boundsGate d2 e s t v).2 e s t (boundsGate d2 e s t v).1 =
      (if q < 1 ∨ q > 10 then
        ((boundsGate d2 e s t v).1 ++ ["rr_range"], "NEUTRAL", .vnum q)
      else ((boundsGate d2 e s t v).1, (boundsGate d2 e s t v).2, .vnum q)) from
    by simp [rrGate, hq]]
  by_cases hr : q < 1 ∨ q > 10
  · rw [if_pos hr]
    simp [List.mem_append, hbfst]
  · rw [if_neg hr]
    exact hbfst

/-- The numeric block either preserves the incoming decision or forces
NEUTRAL. -/
theorem numericGates_decision_cases (d2 : String) (f : RawFields)
    (v : List String) :
    (numericGates d2 f v).2.1 = d2 ∨ (numericGates d2 f v).2.1 = "NEUTRAL" := by
  by_cases hd : (numericGates d2 f v).2.1 = "NEUTRAL"
  · exact Or.inr hd
  · exact Or.inl (numericGates_inv hd).1

/-- Shape of any successful sanitizer run: the confidence threshold was a
number, and the output is exactly one of the two finalization records. -/
theorem sanitizeFields_ok_shape {f : RawFields} {slp minf maxf minp maxp : ℚ}
    {out : Sanitized} (h : sanitizeFields f slp minf maxf minp maxp = .ok out) :
    ∃ τ : ℚ, f.confidence_threshold = .vnum τ ∧
      ((gatesResult f (decide (confidence_val f < τ))).2.1 ≠ "NEUTRAL" ∧
        adjusted_sl_pct f slp minf maxf ≠ 0 ∧
        out = { decision := (gatesResult f (decide (confidence_val f < τ))).2.1
                confidence_score := confidence_val f
                entry_price := f.entry_price
                sl_price := f.sl_price
                tp_price := f.tp_price
                risk_reward_ratio := (gatesResult f (decide (confidence_val f < τ))).2.2
                reasoning := f.reasoning
                adjusted_sl_percentage := some (adjusted_sl_pct f slp minf maxf)
                position_size_pct_of_equity :=
                  some (clamp ((base_sl_pct slp / adjusted_sl_pct f slp minf maxf) * 100)
                    minp maxp)
                violations := (gatesResult f (decide (confidence_val f < τ))).1 } ∨
       (gatesResult f (decide (confidence_val f < τ))).2.1 = "NEUTRAL" ∧
        out = { decision := (gatesResult f (decide (confidence_val f < τ))).2.1
                confidence_score := confidence_val f
                entry_price := .vnone
                sl_price := .vnone
                tp_price := .vnone
                risk_reward_ratio := (gatesResult f (decide (confidence_val f < τ))).2.2
                reasoning := f.reasoning
                adjusted_sl_percentage := none
                position_size_pct_of_equity := none
                violations := (gatesResult f (decide (confidence_val f < τ))).1 }) := by
  cases hthr : f.confidence_threshold with
  | vnone => simp [sanitizeFields, pyLtNum, hthr] at h
  | vstr s => simp [sanitizeFields, pyLtNum, hthr] at h
  | vother r => simp [sanitizeFields, pyLtNum, hthr] at h
  | vnum τ =>
    refine ⟨τ, rfl, ?_⟩
    simp only [sanitizeFields, pyLtNum, hthr] at h
    by_cases hd : (gatesResult f (decide (confidence_val f < τ))).2.1 = "NEUTRAL"
    · right
      rw [if_neg (by simpa using hd)] at h
      exact ⟨hd, (Except.ok.inj h).symm⟩
    · left
      rw [if_pos hd] at h
      by_cases hz : adjusted_sl_pct f slp minf maxf = 0
      · rw [if_pos hz] at h
        exact absurd h (by simp)
      · rw [if_neg hz] at h
        exact ⟨hd, hz, (Except.ok.inj h).symm⟩

/-- With a below-threshold confidence and a well-formed decision word,
the gates yield a clean NEUTRAL: no tags, no ratio. -/
theorem gatesResult_lowconf {f : RawFields}
    (hvalid : decision0 f = "LONG" ∨ decision0 f = "SHORT" ∨
      decision0 f = "NEUTRAL") :
    gatesResult f true = ([], "NEUTRAL", .vnone) := by
  unfold gatesResult
  rw [decisionGate_valid hvalid]
  simpa using numericGates_neutral f []

/-- Forward evaluation of the gates when the decision word is directional,
the confidence passed, the prices parse and the strict bounds hold: the
outcome is decided by the hardcoded `[1, 10]` ratio range alone. -/
theorem gatesResult_pass {f : RawFields} {e s t r : ℚ}
    (hdec : decision0 f = "LONG" ∨ decision0 f = "SHORT")
    (he : pyFloat f.entry_price = some e) (hs : pyFloat f.sl_price = some s)
    (ht : pyFloat f.tp_price = some t)
    (hbL : decision0 f = "LONG" → s < e ∧ e < t)
    (hbS : decision0 f = "SHORT" → t < e ∧ e < s)
    (hcrr : compute_risk_reward (decision0 f) e s t = some r) :
    gatesResult f false =
      (if r < 1 ∨ r > 10 then (["rr_range"], "NEUTRAL", .vnum r)
       else ([], decision0 f, .vnum r)) := by
  have hvalid : decision0 f = "LONG" ∨ decision0 f = "SHORT" ∨
      decision0 f = "NEUTRAL" := by
    rcases hdec with h | h
    · exact Or.inl h
    · exact Or.inr (Or.inl h)
  unfold gatesResult
  rw [decisionGate_valid hvalid]
  have hn : decision0 f ≠ "NEUTRAL" := by
    rcases hdec with h | h <;> simp [h]
  rcases hdec with hL | hS
  · have hb := hbL hL
    have hbg : boundsGate (decision0 f) e s t [] = ([], decision0 f) := by
      rw [hL]
      simp [boundsGate, hb]
    simp only [Bool.false_eq_true, if_false, numericGates, hn, he, hs, ht,
      ne_eq, not_false_iff, if_true, hbg]
    simp [hn, rrGate, hcrr]
  · have hb := hbS hS
    have hbg : boundsGate (decision0 f) e s t [] = ([], decision0 f) := by
      rw [hS]
      simp [boundsGate, hb]
    simp only [Bool.false_eq_true, if_false, numericGates, hn, he, hs, ht,
      ne_eq, not_false_iff, if_true, hbg]
    simp [hn, rrGate, hcrr]

/-- Full unfolding of a sanitizer run once the threshold is a number. -/
theorem sanitizeFields_eval (f : RawFields) {τ : ℚ}
    (hthr : f.confidence_threshold = .vnum τ)
    (slp minf maxf minp maxp : ℚ) :
    sanitizeFields f slp minf maxf minp maxp =
      (if (gatesResult f (decide (confidence_val f < τ))).2.1 ≠ "NEUTRAL" then
        if adjusted_sl_pct f slp minf maxf = 0 then .error "ZeroDivisionError"
        else
          .ok { decision := (gatesResult f (decide (confidence_val f < τ))).2.1
                confidence_score := confidence_val f
                entry_price := f.entry_price
                sl_price := f.sl_price
                tp_price := f.tp_price
                risk_reward_ratio := (gatesResult f (decide (confidence_val f < τ))).2.2
                reasoning := f.reasoning
                adjusted_sl_percentage := some (adjusted_sl_pct f slp minf maxf)
                position_size_pct_of_equity :=
                  some (clamp ((base_sl_pct slp / adjusted_sl_pct f slp minf maxf) * 100)
                    minp maxp)
                violations := (gatesResult f (decide (confidence_val f < τ))).1 }
      else
        .ok { decision := (gatesResult f (decide (confidence_val f < τ))).2.1
              confidence_score := confidence_val f
              entry_price := .vnone
              sl_price := .vnone
              tp_price := .vnone
              risk_reward_ratio := (gatesResult f (decide (confidence_val f < τ))).2.2
              reasoning := f.reasoning
              adjusted_sl_percentage := none
              position_size_pct_of_equity := none
              violations := (gatesResult f (decide (confidence_val f < τ))).1 }) := by
  simp only [sanitizeFields, hthr, pyLtNum]

/-- The floored user stop-loss percentage is positive. -/
theorem base_sl_pct_pos (slp : ℚ) : 0 < base_sl_pct slp :=
  lt_of_lt_of_le (by norm_num) (le_max_right slp (1 / 100))

/-- A clamp into a positive well-ordered interval is positive. -/
theorem clamp_pos {x lo hi : ℚ} (hlo : 0 < lo) (hlohi : lo ≤ hi) :
    0 < clamp x lo hi :=
  lt_min (lt_of_lt_of_le hlo (le_max_right x lo)) (lt_of_lt_of_le hlo hlohi)

/-- Clamping is idempotent, also when the interval is inverted. -/
theorem clamp_clamp (x lo hi : ℚ) : clamp (clamp x lo hi) lo hi = clamp x lo hi := by
  unfold clamp
  rcases le_total lo hi with h | h
  · have h1 : lo ≤ min (max x lo) hi := le_min (le_max_right x lo) h
    rw [max_eq_left h1, min_eq_left (min_le_right (max x lo) hi)]
  · have h2 : min (max x lo) hi = hi :=
      min_eq_right (le_trans h (le_max_right x lo))
    rw [h2, max_eq_right h, min_eq_right h]

/-- With the default factors the clamped stop-loss is positive, so the
position-sizing division cannot raise. -/
theorem adjusted_default_pos (f : RawFields) (slp : ℚ) :
    0 < adjusted_sl_pct f slp (1 / 2) (3 / 2) := by
  unfold adjusted_sl_pct
  have hb := base_sl_pct_pos slp
  exact clamp_pos (by linarith) (by linarith)

/-- The decision gate's result decision is always one of the three words. -/
theorem decisionGate_snd_mem (d0 : String) :
    (decisionGate d0).2 = "LONG" ∨ (decisionGate d0).2 = "SHORT" ∨
    (decisionGate d0).2 = "NEUTRAL" := by
  unfold decisionGate
  split
  · assumption
  · simp

/-- If the decision gate's result is not NEUTRAL, the incoming word was
directional and passed untouched with no tag. -/
theorem decisionGate_snd_ne_neutral {d0 : String}
    (h : (decisionGate d0).2 ≠ "NEUTRAL") :
    decisionGate d0 = ([], d0) ∧ (d0 = "LONG" ∨ d0 = "SHORT") := by
  by_cases hv : d0 = "LONG" ∨ d0 = "SHORT" ∨ d0 = "NEUTRAL"
  · rw [decisionGate_valid hv] at h ⊢
    simp only [ne_eq] at h
    refine ⟨rfl, ?_⟩
    rcases hv with h1 | h1 | h1
    · exact Or.inl h1
    · exact Or.inr h1
    · exact absurd h1 h
  · rw [decisionGate_invalid hv] at h
    simp at h

/-- The decision gate never records a numeric-stage tag. -/
theorem decisionGate_fst_tags (d0 : String) :
    "rr_calc" ∉ (decisionGate d0).1 ∧ "rr_range" ∉ (decisionGate d0).1 ∧
    "invalid_numbers" ∉ (decisionGate d0).1 := by
  unfold decisionGate
  split
  · simp
  · simp

/-- Uppercasing fixes the directional decision words. -/
theorem upperStr_dir_id {d : String} (h : d = "LONG" ∨ d = "SHORT") :
    upperStr d = d := by
  rcases h with rfl | rfl <;> decide

/-- The final decision after the gates is always one of the three words. -/
theorem gatesResult_decision_mem (f : RawFields) (below : Bool) :
    (gatesResult f below).2.1 = "LONG" ∨ (gatesResult f below).2.1 = "SHORT" ∨
    (gatesResult f below).2.1 = "NEUTRAL" := by
  unfold gatesResult
  rcases numericGates_decision_cases
      (if below then "NEUTRAL" else (decisionGate (decision0 f)).2) f
      (decisionGate (decision0 f)).1 with h | h
  · rw [h]
    cases below
    · simpa using decisionGate_snd_mem (decision0 f)
    · simp
  · rw [h]
    simp

/-- Reading back a refed sanitized output recovers its fields. -/
theorem readFields_refeed (out : Sanitized) (thr : PyVal) :
    readFields (refeedRaw out thr) =
      { confidence_threshold := thr
        decision := .vstr out.decision
        confidence_score := .vnum out.confidence_score
        entry_price := out.entry_price
        sl_price := out.sl_price
        tp_price := out.tp_price
        risk_reward_ratio := out.risk_reward_ratio
        reasoning := out.reasoning
        adjusted_sl_percentage := optNum out.adjusted_sl_percentage } := by
  simp +decide [readFields, refeedRaw, rawOf, pyGetD]

/-! ## Claims -/

/-- C6: `compute_risk_reward` returns null for NEUTRAL; for LONG it takes
risk = entry − sl and reward = tp − entry, for SHORT risk = sl − entry and
reward = entry − tp; it returns null whenever risk ≤ 0 or reward ≤ 0, and
otherwise returns reward / risk, which is strictly positive. -/
theorem C6_compute_risk_reward_spec (d : String) (e s t : ℚ) :
    compute_risk_reward "NEUTRAL" e s t = none ∧
    compute_risk_reward "LONG" e s t =
      (if e - s ≤ 0 ∨ t - e ≤ 0 then none else some ((t - e) / (e - s))) ∧
    compute_risk_reward "SHORT" e s t =
      (if s - e ≤ 0 ∨ e - t ≤ 0 then none else some ((e - t) / (s - e))) ∧
    (∀ r : ℚ, compute_risk_reward d e s t = some r → 0 < r) := by
  refine ⟨by simp [compute_risk_reward], by simp [compute_risk_reward],
    by simp [compute_risk_reward], fun r h => crr_pos h⟩

/-- Witness for C6 at decision LONG, entry 100, sl 99, tp 102: the ratio
2 is strictly positive. -/
theorem C6_witness : (0 : ℚ) < 2 :=
  (C6_compute_risk_reward_spec "LONG" 100 99 102).2.2.2 2
    (by norm_num [compute_risk_reward])

/-- C7: whenever the proposed decision word is (case-insensitively) one of
LONG, SHORT, NEUTRAL and the parsed confidence (0 on parse failure) is
strictly below the numeric confidence threshold, the sanitizer returns
decision NEUTRAL with an empty violations list (and a null ratio). -/
theorem C7_low_confidence_silent_neutral (raw : RawMap) (user_sl_pct : ℚ)
    {τ : ℚ} (hthr : pyGetD raw "confidence_threshold" (.vnum 70) = .vnum τ)
    (hvalid : decision0 (readFields raw) = "LONG" ∨
      decision0 (readFields raw) = "SHORT" ∨
      decision0 (readFields raw) = "NEUTRAL")
    (hconf : confidence_val (readFields raw) < τ) :
    ∃ out, sanitize_signal_response raw user_sl_pct
        (1 / 2) (3 / 2) 50 150 = .ok out ∧
      out.decision = "NEUTRAL" ∧ out.violations = [] ∧
      out.risk_reward_ratio = .vnone := by
  have hthr' : (readFields raw).confidence_threshold = .vnum τ := hthr
  have heval := sanitizeFields_eval (readFields raw) hthr'
    user_sl_pct (1 / 2) (3 / 2) 50 150
  rw [decide_eq_true hconf, gatesResult_lowconf hvalid] at heval
  rw [if_neg (by simp)] at heval
  exact ⟨_, heval, rfl, rfl, rfl⟩

/-- Witness for C7: decision LONG with confidence 65 against the default
threshold 70 comes back NEUTRAL with no violation tag. -/
theorem C7_witness :
    ∃ out, sanitize_signal_response c7raw 1 (1 / 2) (3 / 2) 50 150 = .ok out ∧
      out.decision = "NEUTRAL" ∧ out.violations = [] ∧
      out.risk_reward_ratio = .vnone :=
  C7_low_confidence_silent_neutral c7raw 1 (by rfl)
    (Or.inl (by decide))
    (by norm_num +decide [confidence_val, readFields, pyGetD, rawOf, pyFloat, c7raw])

/-- C10: no successful sanitizer output ever carries the `rr_calc` tag:
the strict bounds gate runs first, so the ratio is always defined when
`compute_risk_reward` is reached. -/
theorem C10_rr_calc_unreachable (raw : RawMap)
    (user_sl_pct minf maxf minp maxp : ℚ) (out : Sanitized)
    (h : sanitize_signal_response raw user_sl_pct minf maxf minp maxp = .ok out) :
    "rr_calc" ∉ out.violations := by
  have h' : sanitizeFields (readFields raw) user_sl_pct minf maxf minp maxp
      = .ok out := h
  obtain ⟨τ, hthr, hcase⟩ := sanitizeFields_ok_shape h'
  have hv : out.violations =
      (gatesResult (readFields raw) (decide (confidence_val (readFields raw) < τ))).1 := by
    rcases hcase with ⟨_, _, rfl⟩ | ⟨_, rfl⟩ <;> rfl
  rw [hv]
  unfold gatesResult
  apply numericGates_no_rr_calc
  · exact (decisionGate_fst_tags _).1
  · cases decide (confidence_val (readFields raw) < τ)
    · simpa using decisionGate_snd_mem (decision0 (readFields raw))
    · simp

/-- Witness for C10: a concrete valid LONG run has no `rr_calc` tag. -/
theorem C10_witness : "rr_calc" ∉ c10out.violations :=
  C10_rr_calc_unreachable c10raw 1 (1 / 2) (3 / 2) 50 150 c10out
    (by norm_num +decide [sanitize_signal_response, sanitizeFields, readFields,
      pyGetD, rawOf, gatesResult, numericGates, boundsGate, rrGate, decisionGate,
      decision0, confidence_val, base_sl_pct, adjusted_sl_pct, compute_risk_reward,
      slCandidate, clamp, pyFloat, pyStr, pyLtNum, upperStr, upperChar,
      parseNumStr, decLit, digitsToNat, digitVal, takeDigits, max_def, min_def,
      c10raw, c10out])

/-- C3 counterexample: `c3raw1` and `c3raw2` agree on all seven contract
keys (decision, confidence_score, entry_price, sl_price, tp_price,
adjusted_sl_percentage, reasoning) and differ only in an injected
`confidence_threshold` key, yet the sanitizer — same `user_sl_pct`, same
keyword configuration — returns NEUTRAL for one and LONG for the other:
a key outside the claimed contract does influence the result. -/
theorem C3_counterexample :
    (c3raw1 "decision" = c3raw2 "decision" ∧
     c3raw1 "confidence_score" = c3raw2 "confidence_score" ∧
     c3raw1 "entry_price" = c3raw2 "entry_price" ∧
     c3raw1 "sl_price" = c3raw2 "sl_price" ∧
     c3raw1 "tp_price" = c3raw2 "tp_price" ∧
     c3raw1 "adjusted_sl_percentage" = c3raw2 "adjusted_sl_percentage" ∧
     c3raw1 "reasoning" = c3raw2 "reasoning") ∧
    sanitize_signal_response c3raw1 1 (1 / 2) (3 / 2) 50 150 = .ok c3out1 ∧
    sanitize_signal_response c3raw2 1 (1 / 2) (3 / 2) 50 150 = .ok c3out2 ∧
    c3out1.decision = "NEUTRAL" ∧ c3out2.decision = "LONG" ∧
    c3out1.decision ≠ c3out2.decision := by
  refine ⟨⟨?_, ?_, ?_, ?_, ?_, ?_, ?_⟩, ?_, ?_, by decide, by decide, by decide⟩
  · simp +decide [c3raw1, c3raw2, rawOf]
  · simp +decide [c3raw1, c3raw2, rawOf]
  · simp +decide [c3raw1, c3raw2, rawOf]
  · simp +decide [c3raw1, c3raw2, rawOf]
  · simp +decide [c3raw1, c3raw2, rawOf]
  · simp +decide [c3raw1, c3raw2, rawOf]
  · simp +decide [c3raw1, c3raw2, rawOf]
  · norm_num +decide [sanitize_signal_response, sanitizeFields, readFields,
      pyGetD, rawOf, gatesResult, numericGates, boundsGate, rrGate, decisionGate,
      decision0, confidence_val, base_sl_pct, adjusted_sl_pct, compute_risk_reward,
      slCandidate, clamp, pyFloat, pyStr, pyLtNum, upperStr, upperChar,
      parseNumStr, decLit, digitsToNat, digitVal, takeDigits, max_def, min_def,
      c3raw1, c3out1]
  · norm_num +decide [sanitize_signal_response, sanitizeFields, readFields,
      pyGetD, rawOf, gatesResult, numericGates, boundsGate, rrGate, decisionGate,
      decision0, confidence_val, base_sl_pct, adjusted_sl_pct, compute_risk_reward,
      slCandidate, clamp, pyFloat, pyStr, pyLtNum, upperStr, upperChar,
      parseNumStr, decLit, digitsToNat, digitVal, takeDigits, max_def, min_def,
      c3raw2, c3out2]

/-- C3 amended: two input mappings that agree on the seven contract keys
AND on `confidence_threshold` and `risk_reward_ratio` (both of which the
implementation also reads from the payload) produce identical results
under the same `user_sl_pct` and configuration; all remaining keys are
ignored. -/
theorem C3_noninterference (ra rb : RawMap)
    (user_sl_pct minf maxf minp maxp : ℚ)
    (hdec : ra "decision" = rb "decision")
    (hconf : ra "confidence_score" = rb "confidence_score")
    (hentry : ra "entry_price" = rb "entry_price")
    (hsl : ra "sl_price" = rb "sl_price")
    (htp : ra "tp_price" = rb "tp_price")
    (hadj : ra "adjusted_sl_percentage" = rb "adjusted_sl_percentage")
    (hreas : ra "reasoning" = rb "reasoning")
    (hthr : ra "confidence_threshold" = rb "confidence_threshold")
    (hrr : ra "risk_reward_ratio" = rb "risk_reward_ratio") :
    sanitize_signal_response ra user_sl_pct minf maxf minp maxp =
    sanitize_signal_response rb user_sl_pct minf maxf minp maxp := by
  have hf : readFields ra = readFields rb := by
    simp [readFields, pyGetD, hdec, hconf, hentry, hsl, htp, hadj, hreas,
      hthr, hrr]
  unfold sanitize_signal_response
  rw [hf]

/-- Witness for C3 (amended): adding an unrelated `junk` key to a clean
LONG proposal leaves the sanitizer's output unchanged. -/
theorem C3_witness :
    sanitize_signal_response c3wrawA 1 (1 / 2) (3 / 2) 50 150 =
    sanitize_signal_response c3wrawB 1 (1 / 2) (3 / 2) 50 150 :=
  C3_noninterference c3wrawA c3wrawB 1 (1 / 2) (3 / 2) 50 150
    (by simp +decide [c3wrawA, c3wrawB, rawOf])
    (by simp +decide [c3wrawA, c3wrawB, rawOf])
    (by simp +decide [c3wrawA, c3wrawB, rawOf])
    (by simp +decide [c3wrawA, c3wrawB, rawOf])
    (by simp +decide [c3wrawA, c3wrawB, rawOf])
    (by simp +decide [c3wrawA, c3wrawB, rawOf])
    (by simp +decide [c3wrawA, c3wrawB, rawOf])
    (by simp +decide [c3wrawA, c3wrawB, rawOf])
    (by simp +decide [c3wrawA, c3wrawB, rawOf])

/-- C1 counterexample: a LONG proposal whose ratio 50 trips the
`rr_range` gate returns decision NEUTRAL with `risk_reward_ratio`
still equal to 50 — not null, refuting the all-null invariant. -/
theorem C1_counterexample :
    sanitize_signal_response c1raw 1 (1 / 2) (3 / 2) 50 150 = .ok c1out ∧
    c1out.decision = "NEUTRAL" ∧ c1out.risk_reward_ratio = .vnum 50 ∧
    c1out.risk_reward_ratio ≠ .vnone := by
  refine ⟨?_, by decide, rfl, by decide⟩
  norm_num +decide [sanitize_signal_response, sanitizeFields, readFields,
    pyGetD, rawOf, gatesResult, numericGates, boundsGate, rrGate, decisionGate,
    decision0, confidence_val, base_sl_pct, adjusted_sl_pct, compute_risk_reward,
    slCandidate, clamp, pyFloat, pyStr, pyLtNum, upperStr, upperChar,
    parseNumStr, decLit, digitsToNat, digitVal, takeDigits, max_def, min_def,
    c1raw, c1out]

/-- C1 amended: on a NEUTRAL output, `entry_price`, `sl_price`,
`tp_price`, `adjusted_sl_percentage` and `position_size_pct_of_equity`
are always null, and `risk_reward_ratio` is null as well UNLESS the
`rr_range` gate fired (the slot then holds the out-of-range ratio) or the
`invalid_numbers` gate fired (the slot then passes the raw input's
`risk_reward_ratio` value through). -/
theorem C1_neutral_nulls (raw : RawMap)
    (user_sl_pct minf maxf minp maxp : ℚ) (out : Sanitized)
    (h : sanitize_signal_response raw user_sl_pct minf maxf minp maxp = .ok out)
    (hd : out.decision = "NEUTRAL") :
    out.entry_price = .vnone ∧ out.sl_price = .vnone ∧
    out.tp_price = .vnone ∧ out.adjusted_sl_percentage = none ∧
    out.position_size_pct_of_equity = none ∧
    ("rr_range" ∉ out.violations → "invalid_numbers" ∉ out.violations →
      out.risk_reward_ratio = .vnone) := by
  have h' : sanitizeFields (readFields raw) user_sl_pct minf maxf minp maxp
      = .ok out := h
  obtain ⟨τ, hthr, hcase⟩ := sanitizeFields_ok_shape h'
  rcases hcase with ⟨hne, _, rfl⟩ | ⟨hneu, rfl⟩
  · exact absurd hd hne
  refine ⟨rfl, rfl, rfl, rfl, rfl, fun h1 h2 => ?_⟩
  have houtc := numericGates_rr_outcome
    (if decide (confidence_val (readFields raw) < τ) then "NEUTRAL"
      else (decisionGate (decision0 (readFields raw))).2)
    (readFields raw) (decisionGate (decision0 (readFields raw))).1
  rcases houtc with hc | ⟨hmem, _⟩ | ⟨hmem, _⟩ | hc
  · exact hc
  · exact absurd hmem h1
  · exact absurd hmem h2
  · exact absurd hneu hc

/-- Witness for C1 (amended): the empty mapping yields NEUTRAL with all
six fields null. -/
theorem C1_witness :
    c1wout.entry_price = .vnone ∧ c1wout.sl_price = .vnone ∧
    c1wout.tp_price = .vnone ∧ c1wout.adjusted_sl_percentage = none ∧
    c1wout.position_size_pct_of_equity = none ∧
    ("rr_range" ∉ c1wout.violations → "invalid_numbers" ∉ c1wout.violations →
      c1wout.risk_reward_ratio = .vnone) :=
  C1_neutral_nulls (rawOf []) 1 (1 / 2) (3 / 2) 50 150 c1wout
    (by norm_num +decide [sanitize_signal_response, sanitizeFields, readFields,
      pyGetD, rawOf, gatesResult, numericGates, boundsGate, rrGate, decisionGate,
      decision0, confidence_val, base_sl_pct, adjusted_sl_pct, compute_risk_reward,
      slCandidate, clamp, pyFloat, pyStr, pyLtNum, upperStr, upperChar,
      parseNumStr, decLit, digitsToNat, digitVal, takeDigits, max_def, min_def,
      c1wout])
    (by decide)

/-- C2 counterexample: a mapping whose extra `confidence_threshold` key
holds a string makes the unguarded comparison
`confidence_val < confidence_threshold` raise a TypeError, so the
sanitizer does NOT return a SanitizedDecision for every input mapping. -/
theorem C2_counterexample :
    sanitize_signal_response c2raw 1 (1 / 2) (3 / 2) 50 150
      = .error "TypeError" := by
  norm_num +decide [sanitize_signal_response, sanitizeFields, readFields,
    pyGetD, rawOf, gatesResult, numericGates, boundsGate, rrGate, decisionGate,
    decision0, confidence_val, base_sl_pct, adjusted_sl_pct, compute_risk_reward,
    slCandidate, clamp, pyFloat, pyStr, pyLtNum, upperStr, upperChar,
    parseNumStr, decLit, digitsToNat, digitVal, takeDigits, max_def, min_def,
    c2raw]

/-- C2 amended: provided the `confidence_threshold` key, when present in
the input mapping, holds a number, the sanitizer (default keyword
configuration) returns a structurally valid SanitizedDecision — a
well-formed decision word — for every input mapping and every
`user_sl_pct`, and never raises. -/
theorem C2_totality (raw : RawMap) (user_sl_pct : ℚ)
    (hthr : ∀ v, raw "confidence_threshold" = some v → ∃ q : ℚ, v = .vnum q) :
    ∃ out, sanitize_signal_response raw user_sl_pct (1 / 2) (3 / 2) 50 150
        = .ok out ∧
      (out.decision = "LONG" ∨ out.decision = "SHORT" ∨
        out.decision = "NEUTRAL") := by
  have hτ : ∃ τ : ℚ, (readFields raw).confidence_threshold = .vnum τ := by
    show ∃ τ : ℚ, pyGetD raw "confidence_threshold" (.vnum 70) = .vnum τ
    unfold pyGetD
    cases hro : raw "confidence_threshold" with
    | none => exact ⟨70, rfl⟩
    | some v =>
        obtain ⟨q, rfl⟩ := hthr v hro
        exact ⟨q, rfl⟩
  obtain ⟨τ, hthr'⟩ := hτ
  have heval := sanitizeFields_eval (readFields raw) hthr'
    user_sl_pct (1 / 2) (3 / 2) 50 150
  by_cases hne : (gatesResult (readFields raw)
      (decide (confidence_val (readFields raw) < τ))).2.1 = "NEUTRAL"
  · rw [if_neg (fun hc => hc hne)] at heval
    exact ⟨_, heval, Or.inr (Or.inr hne)⟩
  · rw [if_pos hne,
      if_neg (ne_of_gt (adjusted_default_pos (readFields raw) user_sl_pct))]
      at heval
    exact ⟨_, heval, gatesResult_decision_mem (readFields raw) _⟩

/-- Witness for C2 (amended): malformed decision word, unparseable
confidence and a non-numeric object as entry price still produce a
well-formed result. -/
theorem C2_witness :
    ∃ out, sanitize_signal_response c2wraw 1 (1 / 2) (3 / 2) 50 150
        = .ok out ∧
      (out.decision = "LONG" ∨ out.decision = "SHORT" ∨
        out.decision = "NEUTRAL") :=
  C2_totality c2wraw 1 (by
    intro v hv
    simp +decide [c2wraw, rawOf] at hv)

/-- C5 counterexample: numeric-string prices on a passing LONG proposal
are passed through as strings: `entry_price` in the non-NEUTRAL output is
the string "100", not a numeric value. -/
theorem C5_counterexample :
    sanitize_signal_response c5raw 1 (1 / 2) (3 / 2) 50 150 = .ok c5out ∧
    c5out.decision = "LONG" ∧ c5out.entry_price = .vstr "100" ∧
    isNum c5out.entry_price = false := by
  refine ⟨?_, by decide, rfl, by decide⟩
  norm_num +decide [sanitize_signal_response, sanitizeFields, readFields,
    pyGetD, rawOf, gatesResult, numericGates, boundsGate, rrGate, decisionGate,
    decision0, confidence_val, base_sl_pct, adjusted_sl_pct, compute_risk_reward,
    slCandidate, clamp, pyFloat, pyStr, pyLtNum, upperStr, upperChar,
    parseNumStr, decLit, digitsToNat, digitVal, takeDigits, max_def, min_def,
    c5raw, c5out]

/-- C5 amended: in a non-NEUTRAL output the three price fields are the
raw input values passed through unchanged (numeric strings stay
strings); those values do parse as numbers e, s, t satisfying
sl < entry < tp for LONG and tp < entry < sl for SHORT, and
`risk_reward_ratio` is a strictly positive number. -/
theorem C5_nonneutral_prices (raw : RawMap)
    (user_sl_pct minf maxf minp maxp : ℚ) (out : Sanitized)
    (h : sanitize_signal_response raw user_sl_pct minf maxf minp maxp = .ok out)
    (hd : out.decision ≠ "NEUTRAL") :
    out.entry_price = pyGetD raw "entry_price" .vnone ∧
    out.sl_price = pyGetD raw "sl_price" .vnone ∧
    out.tp_price = pyGetD raw "tp_price" .vnone ∧
    (out.decision = "LONG" ∨ out.decision = "SHORT") ∧
    ∃ e s t r : ℚ,
      pyFloat out.entry_price = some e ∧ pyFloat out.sl_price = some s ∧
      pyFloat out.tp_price = some t ∧
      (out.decision = "LONG" → s < e ∧ e < t) ∧
      (out.decision = "SHORT" → t < e ∧ e < s) ∧
      out.risk_reward_ratio = .vnum r ∧ 0 < r := by
  have h' : sanitizeFields (readFields raw) user_sl_pct minf maxf minp maxp
      = .ok out := h
  obtain ⟨τ, hthr, hcase⟩ := sanitizeFields_ok_shape h'
  rcases hcase with ⟨hne, hz, rfl⟩ | ⟨hneu, rfl⟩
  swap
  · exact absurd hneu hd
  have hinv := numericGates_inv
    (show (numericGates
        (if decide (confidence_val (readFields raw) < τ) then "NEUTRAL"
          else (decisionGate (decision0 (readFields raw))).2)
        (readFields raw)
        (decisionGate (decision0 (readFields raw))).1).2.1 ≠ "NEUTRAL"
      from hne)
  obtain ⟨hdeq, hveq, e, s, t, r, he, hs, ht, hbL, hbS, hcrr, hr, hrrq⟩ := hinv
  have hd2ne : (if decide (confidence_val (readFields raw) < τ) then "NEUTRAL"
      else (decisionGate (decision0 (readFields raw))).2) ≠ "NEUTRAL" := by
    rw [← hdeq]
    exact hne
  have hd2eq : (if decide (confidence_val (readFields raw) < τ) then "NEUTRAL"
      else (decisionGate (decision0 (readFields raw))).2)
      = (decisionGate (decision0 (readFields raw))).2 := by
    by_cases hlt : confidence_val (readFields raw) < τ
    · rw [decide_eq_true hlt] at hd2ne
      simp at hd2ne
    · rw [decide_eq_false hlt]
      simp
  have hgne : (decisionGate (decision0 (readFields raw))).2 ≠ "NEUTRAL" := by
    rw [← hd2eq]
    exact hd2ne
  obtain ⟨hgeq, hdir⟩ := decisionGate_snd_ne_neutral hgne
  have hdec : (gatesResult (readFields raw)
      (decide (confidence_val (readFields raw) < τ))).2.1
      = decision0 (readFields raw) := by
    unfold gatesResult
    rw [hdeq, hd2eq, hgeq]
  refine ⟨rfl, rfl, rfl, ?_, e, s, t, r, he, hs, ht, ?_, ?_, ?_, crr_pos hcrr⟩
  · have hgoal : (gatesResult (readFields raw)
        (decide (confidence_val (readFields raw) < τ))).2.1 = "LONG" ∨
        (gatesResult (readFields raw)
          (decide (confidence_val (readFields raw) < τ))).2.1 = "SHORT" := by
      rw [hdec]
      exact hdir
    exact hgoal
  · intro hL
    have hL' : (gatesResult (readFields raw)
        (decide (confidence_val (readFields raw) < τ))).2.1 = "LONG" := hL
    rw [hdec] at hL'
    refine hbL ?_
    rw [hd2eq, hgeq]
    exact hL'
  · intro hS
    have hS' : (gatesResult (readFields raw)
        (decide (confidence_val (readFields raw) < τ))).2.1 = "SHORT" := hS
    rw [hdec] at hS'
    refine hbS ?_
    rw [hd2eq, hgeq]
    exact hS'
  · exact hrrq

/-- Witness for C5 (amended): the string-price LONG run satisfies the
pass-through and parsed-ordering properties. -/
theorem C5_witness :
    c5out.entry_price = pyGetD c5raw "entry_price" .vnone ∧
    c5out.sl_price = pyGetD c5raw "sl_price" .vnone ∧
    c5out.tp_price = pyGetD c5raw "tp_price" .vnone ∧
    (c5out.decision = "LONG" ∨ c5out.decision = "SHORT") ∧
    ∃ e s t r : ℚ,
      pyFloat c5out.entry_price = some e ∧ pyFloat c5out.sl_price = some s ∧
      pyFloat c5out.tp_price = some t ∧
      (c5out.decision = "LONG" → s < e ∧ e < t) ∧
      (c5out.decision = "SHORT" → t < e ∧ e < s) ∧
      c5out.risk_reward_ratio = .vnum r ∧ 0 < r :=
  C5_nonneutral_prices c5raw 1 (1 / 2) (3 / 2) 50 150 c5out
    (by norm_num +decide [sanitize_signal_response, sanitizeFields, readFields,
      pyGetD, rawOf, gatesResult, numericGates, boundsGate, rrGate, decisionGate,
      decision0, confidence_val, base_sl_pct, adjusted_sl_pct, compute_risk_reward,
      slCandidate, clamp, pyFloat, pyStr, pyLtNum, upperStr, upperChar,
      parseNumStr, decLit, digitsToNat, digitVal, takeDigits, max_def, min_def,
      c5raw, c5out])
    (by decide)

/-- C4 counterexample: instantiating the claim's "every configured closed
range" at [lo, hi] = [1, 3]: a LONG run with ratio 5 — outside [1, 3] —
passes with no `rr_range` violation and a non-NEUTRAL decision, because
the sanitizer has no range parameter at all and hardcodes [1, 10]. -/
theorem C4_counterexample :
    sanitize_signal_response c4raw 1 (1 / 2) (3 / 2) 50 150 = .ok c4out ∧
    c4out.violations = [] ∧ c4out.decision = "LONG" ∧
    c4out.risk_reward_ratio = .vnum 5 ∧ ¬ ((5 : ℚ) ≤ 3) := by
  refine ⟨?_, rfl, rfl, rfl, by norm_num⟩
  norm_num +decide [sanitize_signal_response, sanitizeFields, readFields,
    pyGetD, rawOf, gatesResult, numericGates, boundsGate, rrGate, decisionGate,
    decision0, confidence_val, base_sl_pct, adjusted_sl_pct, compute_risk_reward,
    slCandidate, clamp, pyFloat, pyStr, pyLtNum, upperStr, upperChar,
    parseNumStr, decLit, digitsToNat, digitVal, takeDigits, max_def, min_def,
    c4raw, c4out]

/-- C4 amended: the acceptable risk/reward range is the hardcoded [1, 10]
(the sanitizer takes no range parameter): whenever the gates up to
risk/reward have passed with ratio r, the `rr_range` violation is
recorded exactly when r < 1 or r > 10, in which case the decision is
forced to NEUTRAL (with the ratio still reported); otherwise the decision
survives with no violation. -/
theorem C4_rr_range_hardcoded (raw : RawMap) (user_sl_pct : ℚ)
    {τ e s t r : ℚ} (out : Sanitized)
    (hthr : pyGetD raw "confidence_threshold" (.vnum 70) = .vnum τ)
    (hconf : ¬ (confidence_val (readFields raw) < τ))
    (hdec : decision0 (readFields raw) = "LONG" ∨
      decision0 (readFields raw) = "SHORT")
    (he : pyFloat (pyGetD raw "entry_price" .vnone) = some e)
    (hs : pyFloat (pyGetD raw "sl_price" .vnone) = some s)
    (ht : pyFloat (pyGetD raw "tp_price" .vnone) = some t)
    (hbL : decision0 (readFields raw) = "LONG" → s < e ∧ e < t)
    (hbS : decision0 (readFields raw) = "SHORT" → t < e ∧ e < s)
    (hcrr : compute_risk_reward (decision0 (readFields raw)) e s t = some r)
    (h : sanitize_signal_response raw user_sl_pct (1 / 2) (3 / 2) 50 150
      = .ok out) :
    ("rr_range" ∈ out.violations ↔ (r < 1 ∨ r > 10)) ∧
    ((r < 1 ∨ r > 10) →
      out.decision = "NEUTRAL" ∧ out.risk_reward_ratio = .vnum r) ∧
    (¬ (r < 1 ∨ r > 10) →
      out.decision = decision0 (readFields raw) ∧ out.violations = []) := by
  have hthr' : (readFields raw).confidence_threshold = .vnum τ := hthr
  have hgates := gatesResult_pass hdec he hs ht hbL hbS hcrr
  have heval := sanitizeFields_eval (readFields raw) hthr'
    user_sl_pct (1 / 2) (3 / 2) 50 150
  rw [decide_eq_false hconf, hgates] at heval
  have h' : sanitizeFields (readFields raw) user_sl_pct (1 / 2) (3 / 2) 50 150
      = .ok out := h
  by_cases hr : r < 1 ∨ r > 10
  · rw [if_pos hr, if_neg (by simp)] at heval
    rw [heval] at h'
    obtain rfl := Except.ok.inj h'
    refine ⟨by simpa using hr, fun _ => ⟨rfl, rfl⟩, fun hnr => absurd hr hnr⟩
  · rw [if_neg hr,
      if_pos (show (([], decision0 (readFields raw), PyVal.vnum r)).2.1
          ≠ "NEUTRAL" from by rcases hdec with h0 | h0 <;> simp [h0]),
      if_neg (ne_of_gt (adjusted_default_pos (readFields raw) user_sl_pct))]
      at heval
    rw [heval] at h'
    obtain rfl := Except.ok.inj h'
    refine ⟨by simpa using hr, fun hr' => absurd hr' hr, fun _ => ⟨rfl, rfl⟩⟩

/-- Witness for C4 (amended): the ratio-5 LONG run keeps its decision and
an empty violations list, since 5 lies inside the hardcoded [1, 10]. -/
theorem C4_witness :
    ("rr_range" ∈ c4out.violations ↔ ((5 : ℚ) < 1 ∨ (5 : ℚ) > 10)) ∧
    (((5 : ℚ) < 1 ∨ (5 : ℚ) > 10) →
      c4out.decision = "NEUTRAL" ∧ c4out.risk_reward_ratio = .vnum 5) ∧
    (¬ ((5 : ℚ) < 1 ∨ (5 : ℚ) > 10) →
      c4out.decision = decision0 (readFields c4raw) ∧ c4out.violations = []) :=
  @C4_rr_range_hardcoded c4raw 1 70 100 99 105 5 c4out (by rfl)
    (by norm_num +decide [confidence_val, readFields, pyGetD, rawOf, pyFloat,
      c4raw])
    (Or.inl (by decide))
    (by simp +decide [pyGetD, rawOf, c4raw, pyFloat])
    (by simp +decide [pyGetD, rawOf, c4raw, pyFloat])
    (by simp +decide [pyGetD, rawOf, c4raw, pyFloat])
    (fun _ => ⟨by norm_num, by norm_num⟩)
    (fun hS => absurd (show ("LONG" : String) = "SHORT" from by
      rw [← show decision0 (readFields c4raw) = "LONG" from by decide]
      exact hS) (by decide))
    (by rw [show decision0 (readFields c4raw) = "LONG" from by decide]
        norm_num [compute_risk_reward])
    (by norm_num +decide [sanitize_signal_response, sanitizeFields, readFields,
      pyGetD, rawOf, gatesResult, numericGates, boundsGate, rrGate, decisionGate,
      decision0, confidence_val, base_sl_pct, adjusted_sl_pct, compute_risk_reward,
      slCandidate, clamp, pyFloat, pyStr, pyLtNum, upperStr, upperChar,
      parseNumStr, decLit, digitsToNat, digitVal, takeDigits, max_def, min_def,
      c4raw, c4out])

/-- C8: for a non-NEUTRAL output, `adjusted_sl_percentage` equals the
candidate (parsed `adjusted_sl_percentage` when present and parseable,
else `base_sl_pct = max(user_sl_pct, 0.01)`) clamped into
[base·min_sl_factor, base·max_sl_factor], and
`position_size_pct_of_equity` equals (base / adjusted) · 100 clamped
into [min_position_size_pct, max_position_size_pct]. -/
theorem C8_sl_clamp_position (raw : RawMap)
    (user_sl_pct minf maxf minp maxp : ℚ) (out : Sanitized)
    (_hfac : minf ≤ maxf)
    (h : sanitize_signal_response raw user_sl_pct minf maxf minp maxp = .ok out)
    (hd : out.decision ≠ "NEUTRAL") :
    out.adjusted_sl_percentage =
      some (clamp (slCandidate (pyGetD raw "adjusted_sl_percentage" .vnone)
          (max user_sl_pct (1 / 100)))
        (max user_sl_pct (1 / 100) * minf) (max user_sl_pct (1 / 100) * maxf)) ∧
    out.position_size_pct_of_equity =
      some (clamp ((max user_sl_pct (1 / 100) /
          clamp (slCandidate (pyGetD raw "adjusted_sl_percentage" .vnone)
            (max user_sl_pct (1 / 100)))
          (max user_sl_pct (1 / 100) * minf)
          (max user_sl_pct (1 / 100) * maxf)) * 100) minp maxp) := by
  have h' : sanitizeFields (readFields raw) user_sl_pct minf maxf minp maxp
      = .ok out := h
  obtain ⟨τ, hthr, hcase⟩ := sanitizeFields_ok_shape h'
  rcases hcase with ⟨hne, hz, rfl⟩ | ⟨hneu, rfl⟩
  · exact ⟨rfl, rfl⟩
  · exact absurd hneu hd

/-- Witness for C8: user_sl_pct = 1 with proposed adjustment 2 under the
default factors clamps to 3/2 and sizes the position at 200/3 ≈ 66.67,
itself inside [50, 150]. -/
theorem C8_witness :
    ((1 : ℚ) / 2 ≤ 3 / 2) ∧
    sanitize_signal_response c8raw 1 (1 / 2) (3 / 2) 50 150 = .ok c8out ∧
    c8out.adjusted_sl_percentage = some (3 / 2) ∧
    c8out.position_size_pct_of_equity = some (200 / 3) := by
  have heval : sanitize_signal_response c8raw 1 (1 / 2) (3 / 2) 50 150
      = .ok c8out := by
    norm_num +decide [sanitize_signal_response, sanitizeFields, readFields,
      pyGetD, rawOf, gatesResult, numericGates, boundsGate, rrGate, decisionGate,
      decision0, confidence_val, base_sl_pct, adjusted_sl_pct, compute_risk_reward,
      slCandidate, clamp, pyFloat, pyStr, pyLtNum, upperStr, upperChar,
      parseNumStr, decLit, digitsToNat, digitVal, takeDigits, max_def, min_def,
      c8raw, c8out]
  have happ := C8_sl_clamp_position c8raw 1 (1 / 2) (3 / 2) 50 150 c8out
    (by norm_num) heval (by decide)
  refine ⟨by norm_num, heval, ?_, ?_⟩
  · rw [happ.1]
    norm_num +decide [slCandidate, pyGetD, rawOf, c8raw, pyFloat, clamp,
      max_def, min_def]
  · rw [happ.2]
    norm_num +decide [slCandidate, pyGetD, rawOf, c8raw, pyFloat, clamp,
      max_def, min_def]

/-- C9: idempotence on compliant input: if a run over numeric price
fields returns a non-NEUTRAL decision with no violations, feeding the
output's fields back as a new proposed decision — same `user_sl_pct`,
same configuration including the confidence threshold — reproduces the
same decision, the same three prices and the same risk/reward ratio. -/
theorem C9_idempotent (raw : RawMap)
    (user_sl_pct minf maxf minp maxp : ℚ) (out : Sanitized)
    (_hnum : isNum (pyGetD raw "entry_price" .vnone) = true ∧
      isNum (pyGetD raw "sl_price" .vnone) = true ∧
      isNum (pyGetD raw "tp_price" .vnone) = true)
    (h : sanitize_signal_response raw user_sl_pct minf maxf minp maxp = .ok out)
    (hd : out.decision ≠ "NEUTRAL") (_hviol : out.violations = []) :
    ∃ out2,
      sanitize_signal_response
        (refeedRaw out (pyGetD raw "confidence_threshold" (.vnum 70)))
        user_sl_pct minf maxf minp maxp = .ok out2 ∧
      out2.decision = out.decision ∧ out2.entry_price = out.entry_price ∧
      out2.sl_price = out.sl_price ∧ out2.tp_price = out.tp_price ∧
      out2.risk_reward_ratio = out.risk_reward_ratio := by
  have h' : sanitizeFields (readFields raw) user_sl_pct minf maxf minp maxp
      = .ok out := h
  obtain ⟨τ, hthr, hcase⟩ := sanitizeFields_ok_shape h'
  rcases hcase with ⟨hne, hz, houtdef⟩ | ⟨hneu, houtdef⟩
  swap
  · rw [houtdef] at hd
    exact absurd hneu hd
  have hinv := numericGates_inv
    (show (numericGates
        (if decide (confidence_val (readFields raw) < τ) then "NEUTRAL"
          else (decisionGate (decision0 (readFields raw))).2)
        (readFields raw)
        (decisionGate (decision0 (readFields raw))).1).2.1 ≠ "NEUTRAL"
      from hne)
  obtain ⟨hdeq, hveq, e, s, t, r, he, hs, ht, hbL, hbS, hcrr, hrng, hrrq⟩ := hinv
  have hd2ne : (if decide (confidence_val (readFields raw) < τ) then "NEUTRAL"
      else (decisionGate (decision0 (readFields raw))).2) ≠ "NEUTRAL" := by
    rw [← hdeq]
    exact hne
  have hltfalse : ¬ (confidence_val (readFields raw) < τ) := by
    intro hlt
    rw [decide_eq_true hlt] at hd2ne
    simp at hd2ne
  have hd2eq : (if decide (confidence_val (readFields raw) < τ) then "NEUTRAL"
      else (decisionGate (decision0 (readFields raw))).2)
      = (decisionGate (decision0 (readFields raw))).2 := by
    rw [decide_eq_false hltfalse]
    simp
  have hgne : (decisionGate (decision0 (readFields raw))).2 ≠ "NEUTRAL" := by
    rw [← hd2eq]
    exact hd2ne
  obtain ⟨hgeq, hdir⟩ := decisionGate_snd_ne_neutral hgne
  have hD : (if decide (confidence_val (readFields raw) < τ) then "NEUTRAL"
      else (decisionGate (decision0 (readFields raw))).2)
      = decision0 (readFields raw) := by
    rw [hd2eq, hgeq]
  rw [hD] at hdeq hbL hbS hcrr hrrq
  -- facts about the first output's fields
  have hrecdec : (gatesResult (readFields raw)
      (decide (confidence_val (readFields raw) < τ))).2.1
      = decision0 (readFields raw) := by
    unfold gatesResult
    rw [hD]
    exact hdeq
  have hrecrr : (gatesResult (readFields raw)
      (decide (confidence_val (readFields raw) < τ))).2.2 = .vnum r := by
    unfold gatesResult
    rw [hD]
    exact hrrq
  have ho1 : out.decision = decision0 (readFields raw) := by
    rw [houtdef]
    exact hrecdec
  have ho2 : out.confidence_score = confidence_val (readFields raw) := by
    rw [houtdef]
  have ho3 : out.entry_price = (readFields raw).entry_price := by
    rw [houtdef]
  have ho4 : out.sl_price = (readFields raw).sl_price := by
    rw [houtdef]
  have ho5 : out.tp_price = (readFields raw).tp_price := by
    rw [houtdef]
  have ho6 : out.risk_reward_ratio = .vnum r := by
    rw [houtdef]
    exact hrecrr
  have ho7 : out.reasoning = (readFields raw).reasoning := by
    rw [houtdef]
  have ho8 : out.adjusted_sl_percentage =
      some (adjusted_sl_pct (readFields raw) user_sl_pct minf maxf) := by
    rw [houtdef]
  -- the refed field record
  have hfr := readFields_refeed out (pyGetD raw "confidence_threshold" (.vnum 70))
  rw [ho1, ho2, ho3, ho4, ho5, ho6, ho7, ho8] at hfr
  simp only [optNum] at hfr
  set f2 : RawFields :=
    { confidence_threshold := pyGetD raw "confidence_threshold" (.vnum 70)
      decision := .vstr (decision0 (readFields raw))
      confidence_score := .vnum (confidence_val (readFields raw))
      entry_price := (readFields raw).entry_price
      sl_price := (readFields raw).sl_price
      tp_price := (readFields raw).tp_price
      risk_reward_ratio := .vnum r
      reasoning := (readFields raw).reasoning
      adjusted_sl_percentage :=
        .vnum (adjusted_sl_pct (readFields raw) user_sl_pct minf maxf) }
    with hf2def
  have hthr2 : f2.confidence_threshold = .vnum τ := hthr
  have hD2 : decision0 f2 = decision0 (readFields raw) :=
    upperStr_dir_id hdir
  have hdec2 : decision0 f2 = "LONG" ∨ decision0 f2 = "SHORT" := by
    rw [hD2]
    exact hdir
  have hbL2 : decision0 f2 = "LONG" → s < e ∧ e < t := by
    intro hl
    refine hbL ?_
    rw [← hD2]
    exact hl
  have hbS2 : decision0 f2 = "SHORT" → t < e ∧ e < s := by
    intro hl
    refine hbS ?_
    rw [← hD2]
    exact hl
  have hcrr2 : compute_risk_reward (decision0 f2) e s t = some r := by
    rw [hD2]
    exact hcrr
  have hgates2 := gatesResult_pass hdec2 he hs ht hbL2 hbS2 hcrr2
  rw [if_neg hrng] at hgates2
  have heval2 := sanitizeFields_eval f2 hthr2 user_sl_pct minf maxf minp maxp
  rw [show decide (confidence_val f2 < τ) = false from decide_eq_false hltfalse,
    hgates2] at heval2
  have hA2 : adjusted_sl_pct f2 user_sl_pct minf maxf
      = adjusted_sl_pct (readFields raw) user_sl_pct minf maxf := by
    show clamp (adjusted_sl_pct (readFields raw) user_sl_pct minf maxf)
        (base_sl_pct user_sl_pct * minf) (base_sl_pct user_sl_pct * maxf)
      = adjusted_sl_pct (readFields raw) user_sl_pct minf maxf
    conv_rhs => rw [adjusted_sl_pct]
    conv_lhs => rw [adjusted_sl_pct]
    exact clamp_clamp _ _ _
  have hz2 : adjusted_sl_pct f2 user_sl_pct minf maxf ≠ 0 := by
    rw [hA2]
    exact hz
  rw [if_pos (show (([] , decision0 f2, PyVal.vnum r)).2.1 ≠ "NEUTRAL" from by
      rcases hdec2 with h0 | h0 <;> simp [h0]),
    if_neg hz2] at heval2
  have hfinal : sanitize_signal_response
      (refeedRaw out (pyGetD raw "confidence_threshold" (.vnum 70)))
      user_sl_pct minf maxf minp maxp =
      sanitizeFields f2 user_sl_pct minf maxf minp maxp := by
    show sanitizeFields
        (readFields (refeedRaw out (pyGetD raw "confidence_threshold" (.vnum 70))))
        user_sl_pct minf maxf minp maxp = _
    rw [hfr]
  rw [heval2] at hfinal
  refine ⟨_, hfinal, ?_, ?_, ?_, ?_, ?_⟩
  · rw [ho1]
    exact hD2
  · rw [ho3]
  · rw [ho4]
  · rw [ho5]
  · rw [ho6]

/-- Witness for C9: refeeding the output of the stop-loss-clamp run
reproduces its decision, prices and ratio. -/
theorem C9_witness :
    ∃ out2,
      sanitize_signal_response
        (refeedRaw c9out (pyGetD c9raw "confidence_threshold" (.vnum 70)))
        1 (1 / 2) (3 / 2) 50 150 = .ok out2 ∧
      out2.decision = c9out.decision ∧ out2.entry_price = c9out.entry_price ∧
      out2.sl_price = c9out.sl_price ∧ out2.tp_price = c9out.tp_price ∧
      out2.risk_reward_ratio = c9out.risk_reward_ratio :=
  C9_idempotent c9raw 1 (1 / 2) (3 / 2) 50 150 c9out
    ⟨by decide, by decide, by decide⟩
    (by norm_num +decide [sanitize_signal_response, sanitizeFields, readFields,
      pyGetD, rawOf, gatesResult, numericGates, boundsGate, rrGate, decisionGate,
      decision0, confidence_val, base_sl_pct, adjusted_sl_pct, compute_risk_reward,
      slCandidate, clamp, pyFloat, pyStr, pyLtNum, upperStr, upperChar,
      parseNumStr, decLit, digitsToNat, digitVal, takeDigits, max_def, min_def,
      c9raw, c9out])
    (by decide) (by decide)

end SignalBot
